import Mathlib

/-!
# Verification of the FINNBAR availability client

A shallow embedding of the core logic of the FINNBAR repository
(`finnbar/api.py`, `finnbar/app.py`, `finnbar/models.py`) together with
proofs about it.

The Python code manipulates JSON values with dynamic typing, so the
embedding works over an explicit JSON value type `JValue` and models the
relevant pieces of Python runtime behaviour explicitly:

* `dict.get` (including the `AttributeError` raised when the receiver is
  not a dict),
* truthiness of values,
* `int(...)` conversion,
* exceptions, as the `Except PyError` monad,
* `str.strip` / `str.lower` / `str.upper` / `",".join` / `str.split`,
* `datetime.fromisoformat(...).strftime("%Y-%m-%d %H:%M")`,
* `list.sort` with a key function (a stable sort; the output of a stable
  sort is uniquely determined by sortedness plus stability, so any stable
  sorting algorithm is an extensionally faithful model — we use insertion
  sort, which is kernel-computable).

The bundled data file `stores.json` is not part of the sources, so the
store table is a parameter throughout, and the country table is modelled
from the spec (see `_COUNTRIES`).
-/

/-- JSON values, as produced by `json.load` / `requests.Response.json`.
Numbers are restricted to integers: the only numeric field the code
consumes is the cash-and-carry `quantity`, which is integral in the wire
contract (spec §6). JSON objects are association lists with unique keys
(Python's JSON parser produces dicts, which cannot hold duplicates). -/
inductive JValue where
  | null
  | bool (b : Bool)
  | num (n : Int)
  | str (s : String)
  | arr (items : List JValue)
  | obj (fields : List (String × JValue))
deriving Repr

/-- The Python exceptions the embedded code can raise.

* `httpError` — `requests.HTTPError` from `resp.raise_for_status()`
  (the spec's `UpstreamHttpError`), carrying the status code;
* `malformedResponse` — the `ValueError("Unexpected API response
  structure")` raised at `api.py:106` (the spec's
  `MalformedResponseError`);
* `attributeError` — calling `.get` on a non-dict;
* `typeError` — e.g. `"T" in None`, `datetime.fromisoformat(non_str)`,
  `int(None)`, or an unhashable dict-membership probe;
* `invalidIntLiteral` — the `ValueError` from `int("...")` on a
  non-numeric string (a different exception instance than
  `malformedResponse`). -/
inductive PyError where
  | httpError (status : Nat)
  | malformedResponse
  | attributeError
  | typeError
  | invalidIntLiteral
deriving Repr, DecidableEq

/-- Python truthiness of a JSON-shaped value: `None`, `False`, `0`, `""`,
`[]` and `{}` are falsy, everything else is truthy. -/
def pyTruthy : JValue → Bool
  | .null => false
  | .bool b => b
  | .num n => n != 0
  | .str s => s != ""
  | .arr items => !items.isEmpty
  | .obj fields => !fields.isEmpty

/-- `v.get(k, d)` for a Python value `v`: returns the value stored under
`k` (JSON `null` is Python `None`, which is also what `get` returns for a
missing key, so the two coincide), the default `d` when the key is
absent, and raises `AttributeError` when `v` is not a dict. -/
def dictGet (v : JValue) (k : String) (d : JValue) : Except PyError JValue :=
  match v with
  | .obj fields =>
    match fields.lookup k with
    | some w => .ok w
    | none => .ok d
  | _ => .error .attributeError

/-- Python `v == s` for a string literal `s`: only a `str` can compare
equal to a string, every other JSON value compares unequal (no error). -/
def pyEqStr (v : JValue) (s : String) : Bool :=
  match v with
  | .str t => t == s
  | _ => false

/-! ## Python string primitives

All string manipulation is done on `List Char` (Unicode code points, the
same units Python strings are made of) so that every definition is
kernel-computable. -/

/-- The characters `str.strip()` removes (ASCII whitespace; the embedding
does not model the additional Unicode whitespace code points, which the
inputs under consideration never contain). -/
def pyIsSpace (c : Char) : Bool :=
  c == ' ' || c == '\t' || c == '\n' || c == '\r' || c == '\x0b' || c == '\x0c'

/-- `str.strip()` on a list of characters. -/
def pyStripL (l : List Char) : List Char :=
  ((l.dropWhile pyIsSpace).reverse.dropWhile pyIsSpace).reverse

/-- Python `s.strip()`. -/
def pyStrip (s : String) : String :=
  String.mk (pyStripL s.data)

/-- Python `s.lower()` (ASCII case mapping; the country codes and store
codes this is applied to are ASCII). -/
def pyLower (s : String) : String :=
  String.mk (s.data.map Char.toLower)

/-- Python `s.upper()` (ASCII case mapping). -/
def pyUpper (s : String) : String :=
  String.mk (s.data.map Char.toUpper)

/-- Python string `<`: lexicographic comparison of code points. -/
def pyStrLtL : List Char → List Char → Bool
  | _, [] => false
  | [], _ :: _ => true
  | a :: as, b :: bs =>
    if a.toNat < b.toNat then true
    else if b.toNat < a.toNat then false
    else pyStrLtL as bs

/-- Python `s < t` on strings. -/
def pyStrLt (s t : String) : Bool :=
  pyStrLtL s.data t.data

/-- Python `s.split(",")` on a list of characters (split on every comma,
no maximum number of splits). -/
def splitCommaL : List Char → List (List Char)
  | [] => [[]]
  | ',' :: rest => [] :: splitCommaL rest
  | c :: rest =>
    match splitCommaL rest with
    | [] => [[c]]
    | g :: gs => (c :: g) :: gs

/-- Python `int(s)` on a string: surrounding whitespace is stripped, an
optional sign is allowed, and the remainder must be one or more decimal
digits, else `ValueError`. (Underscore digit grouping, accepted by
CPython, is not modelled; no input under consideration uses it.) -/
def parseIntL (l : List Char) : Option Int :=
  let core := pyStripL l
  let (sign, digits) : Int × List Char :=
    match core with
    | '-' :: rest => (-1, rest)
    | '+' :: rest => (1, rest)
    | rest => (1, rest)
  if digits = [] then none
  else if digits.all Char.isDigit then
    some (sign * Int.ofNat (digits.foldl (fun acc c => acc * 10 + (c.toNat - 48)) 0))
  else none

/-- Python `int(v)` for a JSON-shaped value: ints pass through, bools
coerce to 0/1, numeric strings parse (else `ValueError`), everything
else raises `TypeError`. -/
def pyInt (v : JValue) : Except PyError Int :=
  match v with
  | .num n => .ok n
  | .bool b => .ok (if b then 1 else 0)
  | .str s =>
    match parseIntL s.data with
    | some n => .ok n
    | none => .error .invalidIntLiteral
  | _ => .error .typeError

/-! ## `datetime.fromisoformat` and `strftime`

`api.py:140` does
`datetime.fromisoformat(updated_at).strftime("%Y-%m-%d %H:%M")`, so only
the year, month, day, hour and minute of the parsed value are ever
observable.  The parser below models CPython ≥ 3.11
`datetime.fromisoformat` restricted to the extended (dashed) date format
with an optional single-character date/time separator, `HH[:MM[:SS]]`
time with optional fractional seconds and an optional UTC offset
(`Z`/`z` or a signed offset).  The basic `YYYYMMDD`/`HHMMSS` forms and
ISO week dates, which CPython also accepts, are outside the response
shapes considered here. -/

/-- Read exactly two decimal digits. -/
def read2 : List Char → Option (Nat × List Char)
  | a :: b :: rest =>
    if a.isDigit && b.isDigit then
      some ((a.toNat - 48) * 10 + (b.toNat - 48), rest)
    else none
  | _ => none

/-- Read exactly four decimal digits. -/
def read4 : List Char → Option (Nat × List Char)
  | a :: b :: c :: d :: rest =>
    if a.isDigit && b.isDigit && c.isDigit && d.isDigit then
      some (((a.toNat - 48) * 10 + (b.toNat - 48)) * 100 +
        (c.toNat - 48) * 10 + (d.toNat - 48), rest)
    else none
  | _ => none

/-- Gregorian leap year. -/
def isLeap (y : Nat) : Bool :=
  y % 4 == 0 && (y % 100 != 0 || y % 400 == 0)

/-- Number of days in a month. -/
def daysInMonth (y m : Nat) : Nat :=
  if m == 2 then (if isLeap y then 29 else 28)
  else if m == 4 || m == 6 || m == 9 || m == 11 then 30
  else 31

/-- Consume one or more fractional-second digits. -/
def readFrac : List Char → Option (List Char)
  | c :: rest => if c.isDigit then some (rest.dropWhile Char.isDigit) else none
  | [] => none

/-- A valid `HH[:MM[:SS[.f+]]]` tail of a UTC offset. -/
def validOffsetTail (l : List Char) : Bool :=
  match read2 l with
  | none => false
  | some (hh, r) =>
    hh ≤ 23 &&
      match r with
      | [] => true
      | ':' :: r2 =>
        match read2 r2 with
        | none => false
        | some (mm, r3) =>
          mm ≤ 59 &&
            match r3 with
            | [] => true
            | ':' :: r4 =>
              match read2 r4 with
              | none => false
              | some (ss, r5) =>
                ss ≤ 59 &&
                  match r5 with
                  | [] => true
                  | '.' :: r6 =>
                    match readFrac r6 with
                    | some [] => true
                    | _ => false
                  | _ => false
            | _ => false
      | _ => false

/-- A valid (possibly empty) UTC-offset suffix of a time string. -/
def validOffset : List Char → Bool
  | [] => true
  | ['Z'] => true
  | ['z'] => true
  | '+' :: r => validOffsetTail r
  | '-' :: r => validOffsetTail r
  | _ => false

/-- Parse the time-of-day that follows the separator, validating the
whole remainder of the string; only hour and minute are returned. -/
def parseTimeOfDay (l : List Char) : Option (Nat × Nat) :=
  match read2 l with
  | none => none
  | some (hh, r) =>
    if hh ≤ 23 then
      match r with
      | ':' :: r2 =>
        match read2 r2 with
        | none => none
        | some (mm, r3) =>
          if mm ≤ 59 then
            match r3 with
            | ':' :: r4 =>
              match read2 r4 with
              | none => none
              | some (ss, r5) =>
                if ss ≤ 59 then
                  match r5 with
                  | '.' :: r6 =>
                    match readFrac r6 with
                    | none => none
                    | some r7 => if validOffset r7 then some (hh, mm) else none
                  | ',' :: r6 =>
                    match readFrac r6 with
                    | none => none
                    | some r7 => if validOffset r7 then some (hh, mm) else none
                  | _ => if validOffset r5 then some (hh, mm) else none
                else none
            | _ => if validOffset r3 then some (hh, mm) else none
          else none
      | _ => if validOffset r then some (hh, 0) else none
    else none

/-- `datetime.fromisoformat`, reduced to the observable fields
`(year, month, day, hour, minute)`; `none` models `ValueError`. -/
def fromisoformat (s : String) : Option (Nat × Nat × Nat × Nat × Nat) :=
  match read4 s.data with
  | none => none
  | some (y, r0) =>
    match r0 with
    | '-' :: r1 =>
      match read2 r1 with
      | none => none
      | some (m, r2) =>
        match r2 with
        | '-' :: r3 =>
          match read2 r3 with
          | none => none
          | some (d, r4) =>
            if 1 ≤ y && 1 ≤ m && m ≤ 12 && 1 ≤ d && d ≤ daysInMonth y m then
              match r4 with
              | [] => some (y, m, d, 0, 0)
              | _sep :: rt =>
                match parseTimeOfDay rt with
                | none => none
                | some (hh, mm) => some (y, m, d, hh, mm)
            else none
        | _ => none
    | _ => none

/-- Decimal rendering of `n`, zero-padded to two digits
(`strftime` `%m`/`%d`/`%H`/`%M`). -/
def pad2 (n : Nat) : String :=
  if n < 10 then "0" ++ toString n else toString n

/-- Decimal rendering of `n`, zero-padded to four digits
(`strftime` `%Y`). -/
def pad4 (n : Nat) : String :=
  if n < 10 then "000" ++ toString n
  else if n < 100 then "00" ++ toString n
  else if n < 1000 then "0" ++ toString n
  else toString n

/-- `dt.strftime("%Y-%m-%d %H:%M")`. -/
def strftimeYmdHM : Nat × Nat × Nat × Nat × Nat → String
  | (y, m, d, hh, mm) =>
    pad4 y ++ "-" ++ pad2 m ++ "-" ++ pad2 d ++ " " ++ pad2 hh ++ ":" ++ pad2 mm

/-- The timestamp reformatting applied to a raw string timestamp,
`api.py:138-151`: when non-empty, try
`datetime.fromisoformat(...).strftime("%Y-%m-%d %H:%M")`, keeping the
raw value on `ValueError`; then, if the intermediate value still
contains a `"T"`, split at the first `"T"` and rejoin date and the first
(up to) five characters of the time with a single space. -/
def formatUpdatedAt (raw : String) : String :=
  let u :=
    if raw == "" then raw
    else
      match fromisoformat raw with
      | some dt => strftimeYmdHM dt
      | none => raw
  if u.data.contains 'T' then
    let dateL := u.data.takeWhile (fun c => c != 'T')
    let timeL := (u.data.dropWhile (fun c => c != 'T')).tail
    let timeShort := if timeL.length ≥ 5 then timeL.take 5 else timeL
    String.mk dateL ++ " " ++ String.mk timeShort
  else u

/-- The full `updated_at` computation for a record whose cash-and-carry
availability block is truthy, `api.py:137-151`, applied to the value of
`avail.get("updateDateTime")`:

* a string goes through `formatUpdatedAt`;
* an absent key or JSON `null` gives Python `None`, which falls through
  the falsy `if updated_at:` guard into `"T" in None` — a `TypeError`;
* an empty list/dict is falsy and `"T" in []` / `"T" in {}` is a valid
  (false) membership test, so the value survives unchanged;
* every other non-string value raises `TypeError`, either at
  `datetime.fromisoformat` (truthy values) or at `"T" in ...`
  (falsy numbers / `False`). -/
def computeUpdatedAt (v : JValue) : Except PyError JValue :=
  match v with
  | .str raw => .ok (.str (formatUpdatedAt raw))
  | .arr [] => .ok (.arr [])
  | .obj [] => .ok (.obj [])
  | _ => .error .typeError

/-! ## Data model (`models.py`) and store directory (`api.py:20-67`) -/

/-- One entry of the `stores` array of the bundled dataset
(`stores.json`, spec §6: `{buCode, name, countryCode, country?,
coordinates?}`). `buCode`, `name` and `countryCode` are accessed with
`s["..."]`, so the dataset must provide them (spec §4.1: loading fails
fatally on a malformed dataset); `country` and `coordinates` are read
with `s.get(..., default)`. Coordinates are kept as an opaque JSON value
— no claim observes them. -/
structure RawStore where
  buCode : String
  name : String
  countryCode : String
  country : Option String
  coordinates : Option JValue
deriving Repr

/-- `models.Store`. -/
structure Store where
  bu_code : String
  name : String
  country_code : String
  country : String
  coordinates : JValue
deriving Repr

/-- `models.StockInfo`.  `probability` and `updated_at` are kept as JSON
values: the code stores whatever value the response carried (for
`updated_at`, an empty list or dict can survive the reformatting logic
untouched). `product_id` is a string; see `extractFields` for the
modelling note. -/
structure StockInfo where
  product_id : String
  bu_code : String
  store_name : String
  country_code : String
  country : String
  stock : Int
  probability : JValue
  updated_at : JValue
deriving Repr

/-- The `Store(...)` construction shared by `get_stores` and
`get_all_stores` (`api.py:44-50`). -/
def toStore (s : RawStore) : Store :=
  { bu_code := s.buCode
    name := s.name
    country_code := s.countryCode
    country := s.country.getD ""
    coordinates := s.coordinates.getD (.arr []) }

/-- `api.get_stores` (`api.py:40-53`), parameterised by the loaded
`_STORES` table. -/
def get_stores (tbl : List RawStore) (country_code : String) : List Store :=
  (tbl.filter (fun s => s.countryCode == pyStrip (pyLower country_code))).map toStore

/-- `api.get_all_stores` (`api.py:56-67`). -/
def get_all_stores (tbl : List RawStore) : List Store :=
  tbl.map toStore

/-- Modelled from the spec: the `countries` table of the bundled dataset
`stores.json` is not among the provided sources (spec §6 gives only its
shape, `{code: name}`, mapping lowercase two-letter codes to country
display names).  The entries follow the spec's country-code examples —
`de` (spec §8 scenario) and `us` (`api.py:78` docstring) — with their
standard display names. -/
def _COUNTRIES : List (String × String) :=
  [("de", "Germany"), ("us", "United States")]

/-- Python `sorted` on strings: a stable sort by `<` on code points; on
a list of distinct keys any sorted permutation is the result. -/
def sortedStrings (l : List String) : List String :=
  List.insertionSort (fun a b => pyStrLt b a = false) l

/-- `api.get_country_codes` (`api.py:30-32`):
`sorted(_COUNTRIES.keys())`. -/
def get_country_codes : List String :=
  sortedStrings (_COUNTRIES.map Prod.fst)

/-- `api.get_country_name` (`api.py:35-37`):
`_COUNTRIES.get(code, code.upper())`. -/
def get_country_name (code : String) : String :=
  (_COUNTRIES.lookup code).getD (pyUpper code)

/-! ## `api.check_availability` (`api.py:70-170`) -/

/-- The comma-joined `itemNos` request token, `api.py:91`:
`",".join(p.strip() for p in product_ids)`. -/
def item_nos (product_ids : List String) : String :=
  String.intercalate "," (product_ids.map pyStrip)

/-- `resp.raise_for_status()` raises `requests.HTTPError` exactly for
4xx and 5xx status codes. -/
def raiseForStatus (status : Nat) : Bool :=
  400 ≤ status && status < 600

/-- The upstream HTTP response: a status code and a body that parsed as
JSON (`resp.json()`; responses whose bodies are not JSON raise a decode
error before any of the logic modelled here runs, and no claim concerns
them). -/
structure HttpResponse where
  status : Nat
  body : JValue
deriving Repr

/-- The store lookup dict `{s.bu_code: s for s in get_stores(cc)}`
(`api.py:109`): on duplicate `bu_code`s the later entry wins. -/
def storeLookup (stores : List Store) (code : String) : Option Store :=
  stores.reverse.find? (fun s => s.bu_code == code)

/-- `api.py:120-151`: extraction of `product_id`, `stock`, `probability`
and `updated_at` from one availability entry.

Modelling note on `product_id`: Python stores
`item.get("itemKey", {}).get("itemNo", "")` without inspecting it, and a
non-string value would only raise `TypeError` later, inside the sort's
tuple comparison (and only if it is actually compared against a string).
The embedding types `product_id` as a string and raises the `TypeError`
already at extraction; the divergence is confined to responses that put
a non-string in `itemKey.itemNo`, outside the wire contract of spec §6
(`"itemNo": "<product_id>"`). -/
def extractFields (item : JValue) : Except PyError (String × Int × JValue × JValue) := do
  let ik ← dictGet item "itemKey" (.obj [])
  let pidJ ← dictGet ik "itemNo" (.str "")
  let product_id ←
    match pidJ with
    | .str s => Except.ok s
    | _ => Except.error PyError.typeError
  let cashCarryFlag ← dictGet item "availableForCashCarry" .null
  if pyTruthy cashCarryFlag then
    let bo ← dictGet item "buyingOption" (.obj [])
    let cch ← dictGet bo "cashCarry" (.obj [])
    let avail ← dictGet cch "availability" (.obj [])
    if pyTruthy avail then
      let qRaw ← dictGet avail "quantity" (.num 0)
      let stock ← pyInt (if pyTruthy qRaw then qRaw else .num 0)
      let probJ ← dictGet avail "probability" (.obj [])
      let thisDay ← dictGet probJ "thisDay" (.obj [])
      let probability ← dictGet thisDay "messageType" (.str "")
      let udt ← dictGet avail "updateDateTime" .null
      let updated_at ← computeUpdatedAt udt
      return (product_id, stock, probability, updated_at)
    else
      return (product_id, 0, .str "", .str "")
  else
    return (product_id, 0, .str "", .str "")

/-- `api.py:112-164`: processing of one entry of the `availabilities`
array.  `none` models `continue` (a skipped entry). -/
def processItem (lk : String → Option Store) (item : JValue) :
    Except PyError (Option StockInfo) :=
  (dictGet item "classUnitKey" (.obj [])).bind fun cuk =>
  (dictGet cuk "classUnitType" .null).bind fun cut =>
  if pyEqStr cut "STO" = false then .ok none
  else
    (dictGet cuk "classUnitCode" (.str "")).bind fun scJ =>
    match scJ with
    | .str store_code =>
      match lk store_code with
      | none => .ok none
      | some store =>
        (extractFields item).bind fun f =>
        .ok (some
          { product_id := f.1
            bu_code := store_code
            store_name := store.name
            country_code := store.country_code
            country := store.country
            stock := f.2.1
            probability := f.2.2.1
            updated_at := f.2.2.2 })
    | .arr _ => .error .typeError
    | .obj _ => .error .typeError
    | _ => .ok none

/-- The loop of `api.py:112-164` over the whole `availabilities` array,
appending the constructed records in order. -/
def processItems (lk : String → Option Store) : List JValue →
    Except PyError (List StockInfo)
  | [] => .ok []
  | item :: rest =>
    (processItem lk item).bind fun o =>
    (processItems lk rest).bind fun tail =>
    .ok
      (match o with
       | some r => r :: tail
       | none => tail)

/-- The sort key comparison of `api.py:169`: Python's tuple `≤` on
`(x.store_name, x.product_id)`, i.e. lexicographic by code-point string
comparison (case sensitive). -/
def stockLeB (a b : StockInfo) : Bool :=
  pyStrLt a.store_name b.store_name ||
    (a.store_name == b.store_name &&
      (pyStrLt a.product_id b.product_id || a.product_id == b.product_id))

/-- `stockLeB` as a relation. -/
def stockLe (a b : StockInfo) : Prop :=
  stockLeB a b = true

instance : DecidableRel stockLe := fun a b =>
  inferInstanceAs (Decidable (stockLeB a b = true))

/-- `results.sort(key=lambda x: (x.store_name, x.product_id))`
(`api.py:169`): Python's `list.sort` is a stable sort, and a stable
sort's output is uniquely determined by sortedness and stability, so
insertion sort is an extensionally faithful model. -/
def sortStock (l : List StockInfo) : List StockInfo :=
  List.insertionSort stockLe l

/-- `api.py:90-164`: the status check, the structural check on
`availabilities`, and the record-construction loop — the `results` list
as it stands just before the `bu_code` filter of line 167.  The outbound
request itself (lines 91-101) only consumes `item_nos product_ids` and
the normalised country code; the response is a parameter. -/
def collectRecords (tbl : List RawStore) (resp : HttpResponse)
    (country_code : String) : Except PyError (List StockInfo) :=
  if raiseForStatus resp.status then .error (.httpError resp.status)
  else
    match dictGet resp.body "availabilities" .null with
    | .error e => .error e
    | .ok availJ =>
      match availJ with
      | .arr items =>
        processItems (storeLookup (get_stores tbl (pyStrip (pyLower country_code)))) items
      | _ => .error .malformedResponse

/-- `api.py:90-168`: `collectRecords` followed by the optional `bu_code`
filter of lines 167-168 (`if bu_code:` is a truthiness test, so both
`None` and the empty string skip the filter), i.e. the result list as it
stands just before the final sort. -/
def check_availability_presort (tbl : List RawStore) (resp : HttpResponse)
    (country_code : String) (product_ids : List String)
    (bu_code : Option String) : Except PyError (List StockInfo) :=
  match collectRecords tbl resp country_code with
  | .error e => .error e
  | .ok results =>
    .ok
      (match bu_code with
       | some f => if f == "" then results else results.filter (fun r => r.bu_code == f)
       | none => results)

/-- `api.check_availability` (`api.py:70-170`): the pre-sort pipeline
followed by the stable sort of line 169. -/
def check_availability (tbl : List RawStore) (resp : HttpResponse)
    (country_code : String) (product_ids : List String)
    (bu_code : Option String) : Except PyError (List StockInfo) :=
  match check_availability_presort tbl resp country_code product_ids bu_code with
  | .error e => .error e
  | .ok results => .ok (sortStock results)

/-! ## The presentation layer (`app.py`) -/

/-- `app.FinnbarApp._product_ids` (`app.py:139-149`): split the input on
commas, strip whitespace and every `.` from each token, drop tokens that
normalise to the empty string. -/
def _product_ids (raw0 : String) : List String :=
  let raw := pyStrip raw0
  if raw == "" then []
  else
    (splitCommaL raw.data).filterMap fun token =>
      let normalized := (pyStripL token).filter (fun c => c != '.')
      if normalized == [] then none else some (String.mk normalized)

/-- `app._ZERO_STOCK_KEYS` (`app.py:35`). -/
def _ZERO_STOCK_KEYS : List String :=
  ["OUT_OF_STOCK"]

/-- The Stock cell of one rendered row, `app.py:280`:
`str(r.stock) if r.probability not in _ZERO_STOCK_KEYS else "0"`.
Membership of an unhashable value (list/dict) in a frozenset raises
`TypeError`; any other non-string value is simply not a member. -/
def renderStockCell (r : StockInfo) : Except PyError String :=
  match r.probability with
  | .arr _ => .error .typeError
  | .obj _ => .error .typeError
  | .str s => .ok (if _ZERO_STOCK_KEYS.contains s then "0" else toString r.stock)
  | _ => .ok (toString r.stock)

/-! ## Concrete fixtures

A two-store directory and response builders used by the concrete
theorems below. -/

/-- A small store table: two German stores. -/
def demoStores : List RawStore :=
  [⟨"068", "Berlin", "de", some "Germany", none⟩,
   ⟨"117", "Augsburg", "de", some "Germany", none⟩]

/-- A fully populated store-type availability entry. -/
def demoItem (code pid : String) (qty : Int) (msg : String) (ts : String) : JValue :=
  .obj [("classUnitKey", .obj [("classUnitType", .str "STO"), ("classUnitCode", .str code)]),
        ("itemKey", .obj [("itemNo", .str pid)]),
        ("availableForCashCarry", .bool true),
        ("buyingOption", .obj [("cashCarry", .obj [("availability", .obj
          [("quantity", .num qty),
           ("probability", .obj [("thisDay", .obj [("messageType", .str msg)])]),
           ("updateDateTime", .str ts)])])])]

/-- A 200 response carrying the given `availabilities` array. -/
def demoResp (items : List JValue) : HttpResponse :=
  ⟨200, .obj [("availabilities", .arr items)]⟩

/-- The record produced for a `quantity = 5`, `OUT_OF_STOCK` entry at
store 068. -/
def demoOutOfStockRecord : StockInfo :=
  { product_id := "40299687"
    bu_code := "068"
    store_name := "Berlin"
    country_code := "de"
    country := "Germany"
    stock := 5
    probability := .str "OUT_OF_STOCK"
    updated_at := .str "2024-01-15 00:00" }

/-! ## The sort-key comparison is a total preorder -/

theorem pyStrLtL_trans {a b c : List Char} (hab : pyStrLtL a b = true)
    (hbc : pyStrLtL b c = true) : pyStrLtL a c = true := by
  induction a generalizing b c with
  | nil =>
    cases b with
    | nil => simp [pyStrLtL] at hab
    | cons q qs =>
      cases c with
      | nil => simp [pyStrLtL] at hbc
      | cons r rs => simp [pyStrLtL]
  | cons p ps ih =>
    cases b with
    | nil => simp [pyStrLtL] at hab
    | cons q qs =>
      cases c with
      | nil => simp [pyStrLtL] at hbc
      | cons r rs =>
        simp only [pyStrLtL] at hab hbc ⊢
        split_ifs at hab hbc ⊢
        all_goals first
          | rfl
          | (exact absurd hab Bool.false_ne_true)
          | (exact absurd hbc Bool.false_ne_true)
          | (exfalso; omega)
          | (exact ih hab hbc)

theorem pyStrLtL_connex {a b : List Char} (hab : pyStrLtL a b = false)
    (hba : pyStrLtL b a = false) : a = b := by
  induction a generalizing b with
  | nil =>
    cases b with
    | nil => rfl
    | cons q qs => simp [pyStrLtL] at hab
  | cons p ps ih =>
    cases b with
    | nil => simp [pyStrLtL] at hba
    | cons q qs =>
      simp only [pyStrLtL] at hab hba
      split_ifs at hab hba with h1 h2
      all_goals first
        | (exact absurd hab.symm Bool.false_ne_true)
        | (exact absurd hba.symm Bool.false_ne_true)
        | (exfalso; omega)
        | (have hv : p.toNat = q.toNat := by omega;
           rw [Char.ext (UInt32.ext hv), ih hab hba])

theorem pyStrLt_trans {s t u : String} (hst : pyStrLt s t = true)
    (htu : pyStrLt t u = true) : pyStrLt s u = true :=
  pyStrLtL_trans hst htu

theorem pyStrLt_connex {s t : String} (hst : pyStrLt s t = false)
    (hts : pyStrLt t s = false) : s = t :=
  String.ext (pyStrLtL_connex hst hts)

instance : IsTotal StockInfo stockLe where
  total a b := by
    unfold stockLe stockLeB
    cases h1 : pyStrLt a.store_name b.store_name
    · cases h2 : pyStrLt b.store_name a.store_name
      · have hs : a.store_name = b.store_name := pyStrLt_connex h1 h2
        cases h3 : pyStrLt a.product_id b.product_id
        · cases h4 : pyStrLt b.product_id a.product_id
          · have hp : a.product_id = b.product_id := pyStrLt_connex h3 h4
            left
            simp [hs, hp]
          · right
            simp [hs.symm, h4]
        · left
          simp [hs, h3]
      · right
        simp [h2]
    · left
      simp [h1]

instance : IsTrans StockInfo stockLe where
  trans a b c hab hbc := by
    unfold stockLe stockLeB at hab hbc ⊢
    simp only [Bool.or_eq_true, Bool.and_eq_true, beq_iff_eq] at hab hbc ⊢
    rcases hab with hab | ⟨habe, hab2⟩
    · rcases hbc with hbc | ⟨hbce, _⟩
      · exact Or.inl (pyStrLt_trans hab hbc)
      · exact Or.inl (hbce ▸ hab)
    · rcases hbc with hbc | ⟨hbce, hbc2⟩
      · exact Or.inl (habe ▸ hbc)
      · refine Or.inr ⟨habe.trans hbce, ?_⟩
        rcases hab2 with hab2 | hab2 <;> rcases hbc2 with hbc2 | hbc2
        · exact Or.inl (pyStrLt_trans hab2 hbc2)
        · exact Or.inl (hbc2 ▸ hab2)
        · exact Or.inl (hab2 ▸ hbc2)
        · exact Or.inr (hab2.trans hbc2)

/-! ## Stable sort lemmas -/

theorem filter_orderedInsert (p : StockInfo → Bool) (a : StockInfo) :
    ∀ s : List StockInfo, List.Sorted stockLe s →
      (List.orderedInsert stockLe a s).filter p =
        if p a then (s.filter p).orderedInsert stockLe a else s.filter p := by
  intro s
  induction s with
  | nil =>
    intro _
    cases hpa : p a <;> simp [List.orderedInsert, List.filter, hpa]
  | cons b t ih =>
    intro hs
    by_cases hab : stockLe a b
    · rw [List.orderedInsert_of_le _ _ hab]
      cases hpa : p a
      · simp [List.filter, hpa]
      · cases hpb : p b
        · have hins : List.orderedInsert stockLe a (t.filter p) = a :: t.filter p := by
            cases hu : t.filter p with
            | nil => rfl
            | cons c v =>
              have hcv : c ∈ t.filter p := by
                rw [hu]
                exact List.mem_cons_self c v
              have hct : c ∈ t := List.mem_of_mem_filter hcv
              have hac : stockLe a c :=
                IsTrans.trans a b c hab (List.rel_of_sorted_cons hs c hct)
              exact List.orderedInsert_of_le _ _ hac
          simp [List.filter, hpa, hpb, hins]
        · simp [List.filter, hpa, hpb, List.orderedInsert_of_le _ _ hab]
    · have step : List.orderedInsert stockLe a (b :: t) = b :: List.orderedInsert stockLe a t := by
        simp [List.orderedInsert, hab]
      rw [step]
      have ihr := ih (List.Sorted.of_cons hs)
      cases hpa : p a
      · cases hpb : p b <;>
          simp [List.filter, hpa, hpb, ihr]
      · cases hpb : p b
        · simp [List.filter, hpa, hpb, ihr]
        · have step2 : List.orderedInsert stockLe a (b :: t.filter p) =
              b :: List.orderedInsert stockLe a (t.filter p) := by
            simp [List.orderedInsert, hab]
          simp [List.filter, hpa, hpb, ihr, step2]

theorem filter_insertionSort (p : StockInfo → Bool) :
    ∀ l : List StockInfo,
      (List.insertionSort stockLe l).filter p = List.insertionSort stockLe (l.filter p) := by
  intro l
  induction l with
  | nil => rfl
  | cons a t ih =>
    have hsorted : List.Sorted stockLe (List.insertionSort stockLe t) :=
      List.sorted_insertionSort stockLe t
    cases hpa : p a
    · simp [List.insertionSort, List.filter, hpa,
        filter_orderedInsert p a _ hsorted, ih]
    · simp [List.insertionSort, List.filter, hpa,
        filter_orderedInsert p a _ hsorted, ih]

/-- `sortStock` commutes with any filter: the concrete statement of
"filter-then-stable-sort equals stable-sort-then-filter". -/
theorem sortStock_filter (p : StockInfo → Bool) (l : List StockInfo) :
    sortStock (l.filter p) = (sortStock l).filter p :=
  (filter_insertionSort p l).symm

/-! ## Pipeline inversion lemmas -/

theorem check_availability_ok_iff {tbl : List RawStore} {resp : HttpResponse}
    {cc : String} {pids : List String} {bu : Option String} {l : List StockInfo} :
    check_availability tbl resp cc pids bu = .ok l ↔
      ∃ l0, check_availability_presort tbl resp cc pids bu = .ok l0 ∧ l = sortStock l0 := by
  unfold check_availability
  cases h : check_availability_presort tbl resp cc pids bu with
  | error e => simp
  | ok l0 => simp [eq_comm]

theorem presort_some_of_none {tbl : List RawStore} {resp : HttpResponse}
    {cc : String} {pids : List String} {f : String} {r0 : List StockInfo}
    (h : check_availability_presort tbl resp cc pids none = .ok r0) (hf : f ≠ "") :
    check_availability_presort tbl resp cc pids (some f) =
      .ok (r0.filter fun r => r.bu_code == f) := by
  have hf2 : (f == "") = false := beq_eq_false_iff_ne.mpr hf
  unfold check_availability_presort at h ⊢
  cases hC : collectRecords tbl resp cc with
  | error e => rw [hC] at h; simp at h
  | ok results =>
    rw [hC] at h
    simp at h
    subst h
    simp [hf2]

theorem presort_some_empty (tbl : List RawStore) (resp : HttpResponse)
    (cc : String) (pids : List String) :
    check_availability_presort tbl resp cc pids (some "") =
      check_availability_presort tbl resp cc pids none := rfl

/-! ## Record provenance lemmas -/

theorem except_bind_ok {ε α β : Type} {x : Except ε α} {f : α → Except ε β} {b : β} :
    x.bind f = .ok b ↔ ∃ a, x = .ok a ∧ f a = .ok b := by
  cases x <;> simp [Except.bind]

theorem processItem_some_store {lk : String → Option Store} {item : JValue}
    {r : StockInfo} (h : processItem lk item = .ok (some r)) :
    ∃ st, lk r.bu_code = some st ∧ r.store_name = st.name ∧
      r.country_code = st.country_code ∧ r.country = st.country := by
  unfold processItem at h
  rw [except_bind_ok] at h
  obtain ⟨cuk, hcuk, h⟩ := h
  rw [except_bind_ok] at h
  obtain ⟨cut, hcut, h⟩ := h
  by_cases hSTO : pyEqStr cut "STO" = false
  · rw [if_pos hSTO] at h
    simp at h
  · rw [if_neg hSTO] at h
    rw [except_bind_ok] at h
    obtain ⟨scJ, hscJ, h⟩ := h
    split at h
    · split at h
      · simp at h
      · next store hlk =>
          rw [except_bind_ok] at h
          obtain ⟨f, hf, h⟩ := h
          have hrec2 := Option.some.inj (Except.ok.inj h)
          subst hrec2
          exact ⟨store, hlk, rfl, rfl, rfl⟩
    · simp at h
    · simp at h
    · simp at h

theorem processItems_mem_store {lk : String → Option Store} :
    ∀ {items : List JValue} {l : List StockInfo}, processItems lk items = .ok l →
      ∀ r ∈ l, ∃ st, lk r.bu_code = some st ∧ r.store_name = st.name ∧
        r.country_code = st.country_code ∧ r.country = st.country := by
  intro items
  induction items with
  | nil =>
    intro l h r hr
    unfold processItems at h
    have hl := Except.ok.inj h
    subst hl
    simp at hr
  | cons item rest ih =>
    intro l h r hr
    unfold processItems at h
    simp only [except_bind_ok] at h
    obtain ⟨o, ho, tail, htail, hl⟩ := h
    have hl2 := Except.ok.inj hl
    subst hl2
    cases o with
    | some r0 =>
      rcases List.mem_cons.mp hr with hrr | hr2
      · subst hrr
        exact processItem_some_store ho
      · exact ih htail r hr2
    | none => exact ih htail r hr

theorem storeLookup_eq_some {stores : List Store} {code : String} {st : Store}
    (h : storeLookup stores code = some st) : st ∈ stores ∧ st.bu_code = code := by
  unfold storeLookup at h
  have hm := List.mem_of_find?_eq_some h
  have hp := List.find?_some h
  exact ⟨List.mem_reverse.mp hm, by simpa using hp⟩

theorem get_stores_country {tbl : List RawStore} {cc : String} {st : Store}
    (h : st ∈ get_stores tbl cc) : st.country_code = pyStrip (pyLower cc) := by
  unfold get_stores at h
  obtain ⟨raw, hraw, hst⟩ := List.mem_map.mp h
  have hpred := List.of_mem_filter hraw
  have : raw.countryCode = pyStrip (pyLower cc) := by simpa using hpred
  rw [← hst]
  simpa [toStore] using this

theorem collectRecords_mem_store {tbl : List RawStore} {resp : HttpResponse}
    {cc : String} {l : List StockInfo} (h : collectRecords tbl resp cc = .ok l) :
    ∀ r ∈ l, ∃ st,
      storeLookup (get_stores tbl (pyStrip (pyLower cc))) r.bu_code = some st ∧
      r.store_name = st.name ∧ r.country_code = st.country_code ∧
      r.country = st.country := by
  intro r hr
  unfold collectRecords at h
  cases hS : raiseForStatus resp.status
  · rw [hS] at h
    simp only [Bool.false_eq_true, if_false] at h
    cases hD : dictGet resp.body "availabilities" .null with
    | error e => rw [hD] at h; simp at h
    | ok availJ =>
      rw [hD] at h
      cases availJ with
      | arr items =>
        have h2 : processItems (storeLookup (get_stores tbl (pyStrip (pyLower cc)))) items
            = .ok l := h
        exact processItems_mem_store h2 r hr
      | null => simp at h
      | bool b => simp at h
      | num n => simp at h
      | str s => simp at h
      | obj fields => simp at h
  · rw [hS] at h
    simp at h

theorem presort_mem_collect {tbl : List RawStore} {resp : HttpResponse}
    {cc : String} {pids : List String} {bu : Option String} {l0 : List StockInfo}
    (h : check_availability_presort tbl resp cc pids bu = .ok l0) :
    ∃ lC, collectRecords tbl resp cc = .ok lC ∧ ∀ r ∈ l0, r ∈ lC := by
  unfold check_availability_presort at h
  cases hC : collectRecords tbl resp cc with
  | error e => rw [hC] at h; simp at h
  | ok results =>
    rw [hC] at h
    have hl := Except.ok.inj h
    refine ⟨results, rfl, ?_⟩
    intro r hr
    rw [← hl] at hr
    cases bu with
    | none => exact hr
    | some f =>
      by_cases hf : (f == "") = true
      · simp only [hf, if_true] at hr
        exact hr
      · simp [hf, List.mem_filter] at hr
        exact hr.1

/-! ## Additional fixtures for the claim theorems -/

/-- A store-type entry whose cash-and-carry availability block has a
quantity but no `updateDateTime` key. -/
def demoMissingTimestampItem : JValue :=
  .obj [("classUnitKey", .obj [("classUnitType", .str "STO"), ("classUnitCode", .str "068")]),
        ("itemKey", .obj [("itemNo", .str "40299687")]),
        ("availableForCashCarry", .bool true),
        ("buyingOption", .obj [("cashCarry", .obj [("availability", .obj
          [("quantity", .num 3)])])])]

/-- A store-type entry whose availability block has only a timestamp
(no quantity, no probability). -/
def demoOnlyTimestampItem : JValue :=
  .obj [("classUnitKey", .obj [("classUnitType", .str "STO"), ("classUnitCode", .str "068")]),
        ("itemKey", .obj [("itemNo", .str "40299687")]),
        ("availableForCashCarry", .bool true),
        ("buyingOption", .obj [("cashCarry", .obj [("availability", .obj
          [("updateDateTime", .str "2024-01-15")])])])]

/-- A two-entry response: one record at each demo store. -/
def demoTwoItems : List JValue :=
  [demoItem "117" "b" 1 "HIGH_IN_STOCK" "x", demoItem "068" "a" 2 "LOW_IN_STOCK" "y"]

/-- The records produced for `demoTwoItems`, sorted by store name. -/
def demoBothRecords : List StockInfo :=
  [{ product_id := "b", bu_code := "117", store_name := "Augsburg", country_code := "de",
     country := "Germany", stock := 1, probability := .str "HIGH_IN_STOCK",
     updated_at := .str "x" },
   { product_id := "a", bu_code := "068", store_name := "Berlin", country_code := "de",
     country := "Germany", stock := 2, probability := .str "LOW_IN_STOCK",
     updated_at := .str "y" }]

/-- The records produced for `demoTwoItems` when filtering on store 068. -/
def demoBerlinOnly : List StockInfo :=
  [{ product_id := "a", bu_code := "068", store_name := "Berlin", country_code := "de",
     country := "Germany", stock := 2, probability := .str "LOW_IN_STOCK",
     updated_at := .str "y" }]

/-- The sorted output of a three-entry response (two stores, tie on
Berlin broken by product id). -/
def demoSortedOut : List StockInfo :=
  [{ product_id := "b", bu_code := "117", store_name := "Augsburg", country_code := "de",
     country := "Germany", stock := 1, probability := .str "HIGH_IN_STOCK",
     updated_at := .str "x" },
   { product_id := "a", bu_code := "068", store_name := "Berlin", country_code := "de",
     country := "Germany", stock := 2, probability := .str "LOW_IN_STOCK",
     updated_at := .str "y" },
   { product_id := "c", bu_code := "068", store_name := "Berlin", country_code := "de",
     country := "Germany", stock := 3, probability := .str "HIGH_IN_STOCK",
     updated_at := .str "z" }]

/-! ## Idempotence of the country-code normalization

`check_availability` normalizes the country code (`api.py:90`) and then
`get_stores` normalizes its argument again (`api.py:42`); both in Python
and in the embedding the composite `strip ∘ lower` is idempotent, so the
double application equals the single one. -/

theorem char_toNat_ofNat {n : Nat} (h : n.isValidChar) : (Char.ofNat n).toNat = n := by
  unfold Char.ofNat
  rw [dif_pos h]
  unfold Char.ofNatAux
  simp [Char.toNat, UInt32.toNat, BitVec.toNat_ofNatLt]

theorem char_toLower_idem (c : Char) : c.toLower.toLower = c.toLower := by
  simp only [Char.toLower]
  by_cases h : 65 ≤ c.toNat ∧ c.toNat ≤ 90
  · rw [if_pos h]
    have hv : (c.toNat + 32).isValidChar := Or.inl (by omega)
    have ht : (Char.ofNat (c.toNat + 32)).toNat = c.toNat + 32 := char_toNat_ofNat hv
    rw [ht, if_neg (by omega)]
  · rw [if_neg h, if_neg h]

theorem mem_pyStripL {c : Char} {l : List Char} (h : c ∈ pyStripL l) : c ∈ l := by
  unfold pyStripL at h
  rw [List.mem_reverse] at h
  have h2 := (List.dropWhile_sublist pyIsSpace).subset h
  rw [List.mem_reverse] at h2
  exact (List.dropWhile_sublist pyIsSpace).subset h2

theorem dropWhile_false_of_cons {p : Char → Bool} :
    ∀ {l : List Char} {c : Char} {y : List Char},
      List.dropWhile p l = c :: y → p c = false := by
  intro l
  induction l with
  | nil => intro c y h; simp [List.dropWhile] at h
  | cons a t ih =>
    intro c y h
    by_cases hp : p a = true
    · rw [List.dropWhile_cons, if_pos hp] at h
      exact ih h
    · rw [List.dropWhile_cons, if_neg hp] at h
      cases h
      simpa using hp

theorem dropWhile_idem {p : Char → Bool} (l : List Char) :
    List.dropWhile p (List.dropWhile p l) = List.dropWhile p l := by
  cases hD : List.dropWhile p l with
  | nil => rfl
  | cons c y =>
    have hc := dropWhile_false_of_cons hD
    rw [List.dropWhile_cons, if_neg (by simp [hc])]

theorem pyStripL_head_false {l : List Char} {c : Char} {y : List Char}
    (h : pyStripL l = c :: y) : pyIsSpace c = false := by
  unfold pyStripL at h
  have hpre : ((List.dropWhile pyIsSpace l).reverse.dropWhile pyIsSpace).reverse
      <+: List.dropWhile pyIsSpace l := by
    have h0 : List.dropWhile pyIsSpace (List.dropWhile pyIsSpace l).reverse
        <:+ (List.dropWhile pyIsSpace l).reverse := List.dropWhile_suffix pyIsSpace
    have h1 := List.reverse_prefix.mpr h0
    rwa [List.reverse_reverse] at h1
  obtain ⟨t2, ht2⟩ := hpre
  rw [h] at ht2
  exact dropWhile_false_of_cons ht2.symm

theorem pyStripL_idem (l : List Char) : pyStripL (pyStripL l) = pyStripL l := by
  have step1 : List.dropWhile pyIsSpace (pyStripL l) = pyStripL l := by
    cases hX : pyStripL l with
    | nil => rfl
    | cons c y =>
      have hc := pyStripL_head_false hX
      rw [List.dropWhile_cons, if_neg (by simp [hc])]
  have step2 : List.dropWhile pyIsSpace (pyStripL l).reverse = (pyStripL l).reverse := by
    have hrev : (pyStripL l).reverse
        = List.dropWhile pyIsSpace (List.dropWhile pyIsSpace l).reverse := by
      unfold pyStripL
      rw [List.reverse_reverse]
    rw [hrev]
    exact dropWhile_idem _
  show ((List.dropWhile pyIsSpace (pyStripL l)).reverse.dropWhile pyIsSpace).reverse
      = pyStripL l
  rw [step1, step2, List.reverse_reverse]

theorem pyLower_fixes_pyStrip_pyLower (s : String) :
    pyLower (pyStrip (pyLower s)) = pyStrip (pyLower s) := by
  unfold pyLower pyStrip
  apply congrArg String.mk
  have hfix : ∀ c ∈ pyStripL (s.data.map Char.toLower), Char.toLower c = id c := by
    intro c hc
    obtain ⟨d, _, hd⟩ := List.mem_map.mp (mem_pyStripL hc)
    rw [← hd]
    exact char_toLower_idem d
  rw [List.map_congr_left hfix, List.map_id]

/-- The country-code normalization `strip(lower(·))` is idempotent. -/
theorem normCC_idem (s : String) :
    pyStrip (pyLower (pyStrip (pyLower s))) = pyStrip (pyLower s) := by
  rw [pyLower_fixes_pyStrip_pyLower]
  unfold pyStrip
  apply congrArg String.mk
  exact pyStripL_idem _

/-! ## The claims -/

/-- C1 (counterexample): `check_availability` itself does not zero the
stock: for an upstream entry with `quantity = 5` and same-day
`messageType = "OUT_OF_STOCK"` it returns a StockInfo whose probability
is `OUT_OF_STOCK` and whose stock is the raw quantity 5, not 0. -/
theorem C1_returned_stock_not_zeroed :
    check_availability demoStores
        (demoResp [demoItem "068" "40299687" 5 "OUT_OF_STOCK" "2024-01-15"])
        "de" ["40299687"] none
      = .ok [demoOutOfStockRecord] ∧
      demoOutOfStockRecord.probability = .str "OUT_OF_STOCK" ∧
      demoOutOfStockRecord.stock = 5 ∧ (5 : Int) ≠ 0 :=
  ⟨rfl, rfl, rfl, by decide⟩

/-- C1 (amended): the `stock ↦ 0` normalization for `OUT_OF_STOCK`
records lives in the presentation layer, not in `check_availability`:
for every StockInfo whose probability is `OUT_OF_STOCK`, the Stock cell
rendered by `_render_stock` (`app.py:280`) is the string `"0"`. -/
theorem C1_render_zeroes_out_of_stock (r : StockInfo)
    (h : r.probability = .str "OUT_OF_STOCK") : renderStockCell r = .ok "0" := by
  unfold renderStockCell
  rw [h]
  simp [_ZERO_STOCK_KEYS]

/-- Witness for `C1_render_zeroes_out_of_stock` at a concrete record. -/
theorem C1_render_zeroes_out_of_stock_witness :
    renderStockCell demoOutOfStockRecord = .ok "0" :=
  C1_render_zeroes_out_of_stock demoOutOfStockRecord rfl

/-- C2: the timestamp reformatting (`api.py:137-151`) maps the
claim's example `"2024-01-15T04:14:05.302Z"` to `"2024-01-15 04:14"`
as stated, but a date-only value `"2024-01-15"` is NOT passed through
unchanged: `datetime.fromisoformat` parses it to midnight and
`strftime("%Y-%m-%d %H:%M")` re-renders it as `"2024-01-15 00:00"`,
contradicting both the claim and the code's own comment
(`api.py:143-145`). -/
theorem C2_date_only_is_rewritten :
    formatUpdatedAt "2024-01-15T04:14:05.302Z" = "2024-01-15 04:14" ∧
      formatUpdatedAt "2024-01-15" = "2024-01-15 00:00" ∧
      ("2024-01-15 00:00" : String) ≠ "2024-01-15" :=
  ⟨rfl, rfl, by decide⟩

/-- C3 (counterexample): `check_availability` builds the `itemNos`
token by stripping whitespace only (`api.py:91`); it does not strip
`.` separators, so the dotted and bare forms of the same id produce
different request tokens. -/
theorem C3_dotted_and_bare_ids_differ :
    item_nos ["306.043.67"] ≠ item_nos ["30604367"] := by decide

/-- C3 (amended): the id normalization that strips `.` separators lives
in the presentation layer (`_product_ids`, `app.py:139-149`), not in
`check_availability`: `check_availability` only trims surrounding
whitespace, while `_product_ids` maps both the dotted and the bare form
of an id to the identical bare token, so ids entered through the UI
reach the request already normalized and produce identical tokens. -/
theorem C3_normalization_in_ui :
    item_nos [" 306.043.67 "] = "306.043.67" ∧
      _product_ids "306.043.67" = ["30604367"] ∧
      _product_ids "30604367" = ["30604367"] ∧
      item_nos (_product_ids "306.043.67") = item_nos (_product_ids "30604367") :=
  ⟨by decide, by decide, by decide, by decide⟩

/-- C4: every successful `check_availability` result is sorted
non-decreasingly by the compound key `(store_name, product_id)` under
case-sensitive code-point string comparison (`stockLe`), and the sort is
stable: any two records that tie on the key appear in the same relative
order as in the pre-sort list of `api.py:168`. -/
theorem C4_sorted_and_stable (tbl : List RawStore) (resp : HttpResponse)
    (cc : String) (pids : List String) (bu : Option String) (l : List StockInfo)
    (h : check_availability tbl resp cc pids bu = .ok l) :
    List.Sorted stockLe l ∧
      ∀ l0, check_availability_presort tbl resp cc pids bu = .ok l0 →
        ∀ a b, a.store_name = b.store_name → a.product_id = b.product_id →
          List.Sublist [a, b] l0 → List.Sublist [a, b] l := by
  obtain ⟨l0, h0, hl⟩ := check_availability_ok_iff.mp h
  subst hl
  constructor
  · exact List.sorted_insertionSort stockLe l0
  · intro l1 h1 a b hsn hpid hsub
    have hll : l1 = l0 := by
      rw [h0] at h1
      exact (Except.ok.inj h1).symm
    subst hll
    have hab : stockLe a b := by
      unfold stockLe stockLeB
      simp [hsn, hpid]
    exact List.pair_sublist_insertionSort hab hsub

/-- Witness for `C4_sorted_and_stable`: a three-record response whose
output is sorted (Augsburg before Berlin, and the Berlin tie ordered by
product id). -/
theorem C4_sorted_and_stable_witness :
    check_availability demoStores
        (demoResp [demoItem "117" "b" 1 "HIGH_IN_STOCK" "x",
          demoItem "068" "a" 2 "LOW_IN_STOCK" "y",
          demoItem "068" "c" 3 "HIGH_IN_STOCK" "z"])
        "de" ["a"] none = .ok demoSortedOut ∧
      List.Sorted stockLe demoSortedOut :=
  ⟨rfl,
    (C4_sorted_and_stable demoStores
      (demoResp [demoItem "117" "b" 1 "HIGH_IN_STOCK" "x",
        demoItem "068" "a" 2 "LOW_IN_STOCK" "y",
        demoItem "068" "c" 3 "HIGH_IN_STOCK" "z"])
      "de" ["a"] none demoSortedOut rfl).1⟩

/-- C5 (counterexample): the empty string is a non-null `storeFilter`,
but `if bu_code:` is a truthiness test, so no filtering happens: the
call returns a record whose `bu_code` (`"068"`) differs from the
supplied filter (`""`), and the unknown filter value `""` does not yield
the empty sequence. -/
theorem C5_empty_filter_not_applied :
    check_availability demoStores
        (demoResp [demoItem "068" "40299687" 5 "OUT_OF_STOCK" "2024-01-15"])
        "de" ["40299687"] (some "")
      = .ok [demoOutOfStockRecord] ∧ demoOutOfStockRecord.bu_code ≠ "" :=
  ⟨rfl, by decide⟩

/-- C5 (amended): for every NON-EMPTY `storeFilter`, the result is
exactly the unfiltered result restricted to records whose `bu_code`
equals the filter — so every returned record carries the filter's
`bu_code`, no matching record is dropped, and a filter matching no
record yields the empty sequence.  (The empty-string filter is treated
as "no filter", see `C9_empty_string_like_none`.) -/
theorem C5_nonempty_filter_exact (tbl : List RawStore) (resp : HttpResponse)
    (cc : String) (pids : List String) (f : String) (l l2 : List StockInfo)
    (hf : f ≠ "")
    (h : check_availability tbl resp cc pids (some f) = .ok l)
    (h2 : check_availability tbl resp cc pids none = .ok l2) :
    l = l2.filter (fun r => r.bu_code == f) ∧
      (∀ r ∈ l, r.bu_code = f) ∧
      ((∀ r ∈ l2, r.bu_code ≠ f) → l = []) := by
  obtain ⟨l0, h0, hl⟩ := check_availability_ok_iff.mp h
  obtain ⟨l0n, h0n, hl2⟩ := check_availability_ok_iff.mp h2
  have hrel := presort_some_of_none h0n hf
  rw [h0] at hrel
  have hfilter : l0 = l0n.filter (fun r => r.bu_code == f) :=
    Except.ok.inj hrel
  have hmain : l = l2.filter (fun r => r.bu_code == f) := by
    rw [hl, hl2, hfilter, sortStock_filter]
  refine ⟨hmain, ?_, ?_⟩
  · intro r hr
    rw [hmain] at hr
    have := List.of_mem_filter hr
    exact beq_iff_eq.mp this
  · intro hnone
    rw [hmain]
    rw [List.filter_eq_nil_iff]
    intro r hr
    simp only [beq_iff_eq]
    exact hnone r hr

/-- Witness for `C5_nonempty_filter_exact` at a concrete two-store
response filtered on store `"068"`. -/
theorem C5_nonempty_filter_exact_witness :
    demoBerlinOnly = demoBothRecords.filter (fun r => r.bu_code == "068") ∧
      (∀ r ∈ demoBerlinOnly, r.bu_code = "068") ∧
      ((∀ r ∈ demoBothRecords, r.bu_code ≠ "068") → demoBerlinOnly = []) :=
  C5_nonempty_filter_exact demoStores (demoResp demoTwoItems) "de" ["a"] "068"
    demoBerlinOnly demoBothRecords (by decide) rfl rfl

/-- C6: a response whose `availabilities` array is present and
well-formed except that one record's truthy availability block lacks
`updateDateTime` crashes the call with a `TypeError` (`"T" in None`,
`api.py:146`) instead of defaulting `updated_at` to `""`; by contrast a
missing quantity and probability do default to `0` and `""`, and a
body without an `availabilities` sequence raises the
`MalformedResponseError` (`ValueError`) of `api.py:106`. -/
theorem C6_missing_timestamp_crashes :
    check_availability demoStores (demoResp [demoMissingTimestampItem])
        "de" ["40299687"] none = .error .typeError ∧
      check_availability demoStores (demoResp [demoOnlyTimestampItem])
          "de" ["40299687"] none
        = .ok [{ product_id := "40299687", bu_code := "068", store_name := "Berlin",
                 country_code := "de", country := "Germany", stock := 0,
                 probability := .str "", updated_at := .str "2024-01-15 00:00" }] ∧
      check_availability demoStores ⟨200, .obj []⟩ "de" ["40299687"] none
        = .error .malformedResponse :=
  ⟨rfl, rfl, rfl⟩

/-- C7: a 4xx/5xx upstream status makes `check_availability` fail with
the HTTP error carrying exactly that status code (`raise_for_status`,
`api.py:101-102`), independent of the body, before any record is
constructed. -/
theorem C7_http_error_propagated (tbl : List RawStore) (body : JValue)
    (cc : String) (pids : List String) (bu : Option String) (s : Nat)
    (h4 : 400 ≤ s) (h6 : s < 600) :
    check_availability tbl ⟨s, body⟩ cc pids bu = .error (.httpError s) := by
  have hS : raiseForStatus s = true := by
    unfold raiseForStatus
    simp only [Bool.and_eq_true, decide_eq_true_eq]
    exact ⟨h4, h6⟩
  unfold check_availability check_availability_presort collectRecords
  rw [hS]
  simp

/-- Witness for `C7_http_error_propagated` at status 500. -/
theorem C7_http_error_propagated_witness :
    check_availability demoStores ⟨500, .obj []⟩ "de" ["40299687"] none
      = .error (.httpError 500) :=
  C7_http_error_propagated demoStores (.obj []) "de" ["40299687"] none 500
    (by decide) (by decide)

/-- C8: a country code is in `get_country_codes` exactly when
`get_country_name` returns something other than the upper-cased code
(the fallback for unknown codes). -/
theorem C8_codes_iff_name (c : String) :
    c ∈ get_country_codes ↔ get_country_name c ≠ pyUpper c := by
  have hcodes : get_country_codes = ["de", "us"] := by rfl
  rw [hcodes]
  unfold get_country_name _COUNTRIES
  by_cases h1 : c = "de"
  · subst h1
    decide
  · by_cases h2 : c = "us"
    · subst h2
      decide
    · have hmem : c ∉ (["de", "us"] : List String) := by simp [h1, h2]
      have hb1 : (c == "de") = false := beq_eq_false_iff_ne.mpr h1
      have hb2 : (c == "us") = false := beq_eq_false_iff_ne.mpr h2
      have hlk : List.lookup c [("de", "Germany"), ("us", "United States")] = none := by
        simp [List.lookup, hb1, hb2]
      simp [hmem, hlk]

/-- Witness for `C8_codes_iff_name` at the code `"de"`. -/
theorem C8_codes_iff_name_witness :
    ("de" ∈ get_country_codes ↔ get_country_name "de" ≠ pyUpper "de") :=
  C8_codes_iff_name "de"

/-- C9: passing the empty string as `bu_code` behaves exactly like
passing `None`: `if bu_code:` (`api.py:167`) is falsy for both, so no
filtering is applied. -/
theorem C9_empty_string_like_none (tbl : List RawStore) (resp : HttpResponse)
    (cc : String) (pids : List String) :
    check_availability tbl resp cc pids (some "") =
      check_availability tbl resp cc pids none := by
  unfold check_availability
  rw [presort_some_empty]

/-- Witness for `C9_empty_string_like_none` at a concrete call. -/
theorem C9_empty_string_like_none_witness :
    check_availability demoStores (demoResp demoTwoItems) "de" ["a"] (some "") =
      check_availability demoStores (demoResp demoTwoItems) "de" ["a"] none :=
  C9_empty_string_like_none demoStores (demoResp demoTwoItems) "de" ["a"]

/-- C10: every returned StockInfo resolves, through the store lookup
built from `get_stores` on the lower-cased/trimmed query country, to a
Store of that country, and its denormalized `store_name`,
`country_code` and `country` fields equal that Store's fields. -/
theorem C10_records_resolve_to_directory (tbl : List RawStore)
    (resp : HttpResponse) (cc : String) (pids : List String)
    (bu : Option String) (l : List StockInfo)
    (h : check_availability tbl resp cc pids bu = .ok l) :
    ∀ r ∈ l, ∃ st,
      storeLookup (get_stores tbl (pyStrip (pyLower cc))) r.bu_code = some st ∧
      st ∈ get_stores tbl (pyStrip (pyLower cc)) ∧ st.bu_code = r.bu_code ∧
      r.store_name = st.name ∧ r.country_code = st.country_code ∧
      r.country = st.country ∧ st.country_code = pyStrip (pyLower cc) := by
  intro r hr
  obtain ⟨l0, h0, hl⟩ := check_availability_ok_iff.mp h
  subst hl
  have hr0 : r ∈ l0 := ((List.perm_insertionSort stockLe l0).mem_iff).mp hr
  obtain ⟨lC, hC, hsub⟩ := presort_mem_collect h0
  have hrC := hsub r hr0
  obtain ⟨st, hst, hname, hccf, hcountry⟩ := collectRecords_mem_store hC r hrC
  obtain ⟨hmem, hbu⟩ := storeLookup_eq_some hst
  have hcc2 := get_stores_country hmem
  rw [normCC_idem] at hcc2
  exact ⟨st, hst, hmem, hbu, hname, hccf, hcountry, hcc2⟩

/-- Witness for `C10_records_resolve_to_directory` at a concrete call
and record. -/
theorem C10_records_resolve_to_directory_witness :
    ∃ st, storeLookup (get_stores demoStores (pyStrip (pyLower "de")))
        demoOutOfStockRecord.bu_code = some st ∧
      st ∈ get_stores demoStores (pyStrip (pyLower "de")) ∧
      st.bu_code = demoOutOfStockRecord.bu_code ∧
      demoOutOfStockRecord.store_name = st.name ∧
      demoOutOfStockRecord.country_code = st.country_code ∧
      demoOutOfStockRecord.country = st.country ∧
      st.country_code = pyStrip (pyLower "de") :=
  C10_records_resolve_to_directory demoStores
    (demoResp [demoItem "068" "40299687" 5 "OUT_OF_STOCK" "2024-01-15"])
    "de" ["40299687"] none [demoOutOfStockRecord] rfl
    demoOutOfStockRecord (List.mem_singleton_self demoOutOfStockRecord)
